import Mathlib

/-!
Verification development for scripts/bytecodecompare/prepare_report.py.

The script drives a compiler over source files and renders bytecode and
metadata into a deterministic text report. The embedding below translates
its pure core: the data model (ContractReport, FileReport), report
formatting, source loading with pragma stripping, standard-JSON input
construction, output parsing, and report orchestration. File reads and the
compiler subprocess are passed in as explicit parameters.
-/

namespace BytecodeCompare

/-- JSON-like values as decoded by the Python json module. Numbers are
modelled as integers: the compiler protocol exchanges only strings,
booleans, objects and arrays, and no claim involves fractional numbers.
Objects are association lists in insertion order, mirroring Python dict
iteration order; dicts produced by json.loads have pairwise distinct keys. -/
inductive Json where
  | null
  | bool (b : Bool)
  | num (n : Int)
  | str (s : String)
  | arr (elems : List Json)
  | obj (entries : List (String × Json))

/-- Exceptions the translated code can raise. json.loads failures are
wrapped as jsonDecodeError; dynamic-typing failures of the Python
operations (membership test on a non-container, subscripting or .items()
or .get on the wrong shape) become the other constructors. -/
inductive PyError where
  | jsonDecodeError (msg : String)
  | typeError (msg : String)
  | keyError (key : String)
  | attributeError (msg : String)
deriving DecidableEq

/-- SMTUse (prepare_report.py lines 14-17). -/
inductive SMTUse where
  | PRESERVE
  | DISABLE
  | STRIP_PRAGMAS
deriving DecidableEq

/-- ContractReport (prepare_report.py lines 20-25). Paths are modelled as
the strings they render to. The dataclass annotates bytecode and metadata
as optional strings; values the compiler omitted are absent. -/
structure ContractReport where
  contract_name : String
  file_name : String
  bytecode : Option String
  metadata : Option String
deriving DecidableEq

/-- FileReport (prepare_report.py lines 28-31). The contract-report
sequence is absent (none) when the compiler output had no contracts
section. -/
structure FileReport where
  file_name : String
  contract_reports : Option (List ContractReport)
deriving DecidableEq

/-- FileReport.format_report (prepare_report.py lines 33-48). The Python
string accumulation with += becomes a fold; each contract report
contributes one bytecode line and one metadata line. -/
def FileReport.format_report (self : FileReport) : String :=
  match self.contract_reports with
  | none => self.file_name ++ ": <ERROR>\n"
  | some reports =>
    reports.foldl (fun report cr =>
      let bytecode := match cr.bytecode with
        | some b => b
        | none => "<NO BYTECODE>"
      let metadata := match cr.metadata with
        | some m => m
        | none => "<NO METADATA>"
      report ++ (self.file_name ++ ":" ++ cr.contract_name ++ " " ++ bytecode ++ "\n")
             ++ (self.file_name ++ ":" ++ cr.contract_name ++ " " ++ metadata ++ "\n")) ""

/-- The exact directive substring removed in strip-pragmas mode
(prepare_report.py line 56). -/
def smtPragma : String := "pragma experimental SMTChecker;"

/-- One left-to-right pass of Python str.replace over the text: at each
position, if the pattern is a prefix of the remaining text, emit the
replacement and continue after the matched occurrence, never rescanning
emitted text. The fuel argument bounds the recursion so the definition is
structural and kernel-computable; pyReplace supplies fuel equal to the text
length, which suffices because each step consumes at least one character
when the pattern is nonempty. -/
def pyReplaceGo (pattern replacement : List Char) : Nat → List Char → List Char
  | _, [] => []
  | 0, s => s
  | fuel + 1, c :: rest =>
    if pattern.isPrefixOf (c :: rest) then
      replacement ++ pyReplaceGo pattern replacement fuel (rest.drop (pattern.length - 1))
    else
      c :: pyReplaceGo pattern replacement fuel rest

/-- Python str.replace(old, new), replacing all non-overlapping occurrences
left to right. The script only calls this with the nonempty pattern
smtPragma; the empty-pattern case (where Python would also insert the
replacement at every character boundary) is mapped to the identity and is
never reached. -/
def pyReplace (s old new : String) : String :=
  if old.data.isEmpty then s
  else String.mk (pyReplaceGo old.data new.data s.data.length s.data)

/-- load_source (prepare_report.py lines 51-58) with the file read factored
out: file_content is the text that the open and read calls produced. -/
def load_source (file_content : String) (smt_use : SMTUse) : String :=
  if smt_use = SMTUse.STRIP_PRAGMAS then
    pyReplace file_content smtPragma ""
  else
    file_content

/-- Decides whether pattern occurs as a contiguous substring of the text. -/
def hasOccurrence (pattern : List Char) : List Char → Bool
  | [] => pattern.isEmpty
  | c :: rest => pattern.isPrefixOf (c :: rest) || hasOccurrence pattern rest

/-- Lexicographic comparison of character lists by code point, the order
Python uses on strings. Defined directly on lists so that it is
kernel-computable. -/
def strLtChars : List Char → List Char → Bool
  | [], [] => false
  | [], _ :: _ => true
  | _ :: _, [] => false
  | a :: as, b :: bs => if a < b then true else if b < a then false else strLtChars as bs

/-- Python string less-than. -/
def pyStrLt (a b : String) : Bool := strLtChars a.data b.data

/-- Python string less-or-equal, written as the negation of the reversed
strict comparison. -/
def pyStrLe (a b : String) : Bool := !(pyStrLt b a)

/-- Insert an element into a list, before the first element it is
less-or-equal to. With a total preorder this realises a stable insertion
step: an element is placed before later elements with an equal key. -/
def orderedInsertBy (le : α → α → Bool) (a : α) : List α → List α
  | [] => [a]
  | b :: l => if le a b then a :: b :: l else b :: orderedInsertBy le a l

/-- Stable insertion sort, the embedding of the Python builtin sorted. -/
def insertionSortBy (le : α → α → Bool) : List α → List α
  | [] => []
  | a :: l => orderedInsertBy le a (insertionSortBy le l)

/-- sorted(source_file_names) (prepare_report.py line 118). -/
def pySorted (l : List String) : List String := insertionSortBy pyStrLe l

/-- sorted(d.items()) (prepare_report.py lines 68 and 69). Python sorts the
key-value tuples lexicographically; dict keys are pairwise distinct, so the
comparison is decided by the keys alone. -/
def pySortedItems (kvs : List (String × Json)) : List (String × Json) :=
  insertionSortBy (fun a b => pyStrLe a.1 b.1) kvs

/-- Python substring test, used by the membership operator on strings. For
a nonempty pattern it decides occurrence; the empty pattern (on which
Python answers True) is handled separately. The only pattern the script
uses is the string contracts. -/
def pyStrContains (hay needle : String) : Bool :=
  needle.data.isEmpty || hasOccurrence needle.data hay.data

/-- The Python membership operator: key in value. Key membership on dicts,
element equality on lists, substring test on strings, TypeError on
non-containers. -/
def pyIn (key : String) (j : Json) : Except PyError Bool :=
  match j with
  | .obj kvs => .ok (kvs.any (fun kv => key == kv.1))
  | .arr xs => .ok (xs.any (fun x => match x with | .str s => key == s | _ => false))
  | .str s => .ok (pyStrContains s key)
  | _ => .error (.typeError "argument of this type is not iterable")

/-- The Python subscript operator value[key] for a string key: dict lookup
(KeyError when missing), TypeError on every other shape. -/
def pyGetItem (j : Json) (key : String) : Except PyError Json :=
  match j with
  | .obj kvs =>
    match kvs.lookup key with
    | some v => .ok v
    | none => .error (.keyError key)
  | _ => .error (.typeError "value is not subscriptable by a string")

/-- The Python dict method items(): AttributeError on anything that is not
a dict. -/
def pyItems (j : Json) : Except PyError (List (String × Json)) :=
  match j with
  | .obj kvs => .ok kvs
  | _ => .error (.attributeError "items")

/-- The Python dict method get(key): AttributeError on anything that is not
a dict, otherwise the value when the key is present. -/
def pyDictGet (j : Json) (key : String) : Except PyError (Option Json) :=
  match j with
  | .obj kvs => .ok (kvs.lookup key)
  | _ => .error (.attributeError "get")

mutual
/-- Python repr of a decoded JSON value, used by string interpolation for
non-string values. String escaping inside containers is approximated: no
claim exercises it, since the compiler protocol carries bytecode and
metadata as plain strings. -/
def pyRepr : Json → String
  | .null => "None"
  | .bool true => "True"
  | .bool false => "False"
  | .num n => toString n
  | .str s => "'" ++ s ++ "'"
  | .arr xs => "[" ++ String.intercalate ", " (pyReprList xs) ++ "]"
  | .obj kvs => "\x7b" ++ String.intercalate ", " (pyReprEntries kvs) ++ "\x7d"

/-- Renders each array element. -/
def pyReprList : List Json → List String
  | [] => []
  | j :: rest => pyRepr j :: pyReprList rest

/-- Renders each object entry. -/
def pyReprEntries : List (String × Json) → List String
  | [] => []
  | (k, v) :: rest => ("'" ++ k ++ "': " ++ pyRepr v) :: pyReprEntries rest
end

/-- Python str() of a decoded JSON value. -/
def pyStr (j : Json) : String :=
  match j with
  | .str s => s
  | _ => pyRepr j

/-- Coerces the result of a dict .get chain to the optional string the
ContractReport dataclass declares. A missing key and a JSON null both
arrive as Python None, hence absence; a string is stored as is; any other
value would be stored unchanged by Python and only ever rendered through
string interpolation in format_report, so it is converted at this point
with the same str() rendering. -/
def pyOptStr (o : Option Json) : Option String :=
  match o with
  | none => none
  | some .null => none
  | some j => some (pyStr j)

/-- The per-contract extraction (prepare_report.py lines 71-76):
bytecode from the nested path evm.bytecode.object with empty-dict defaults,
metadata from the top-level metadata key. -/
def parse_contract_results (contract_name inner_file_name : String)
    (contract_results : Json) : Except PyError ContractReport := do
  let evm := (← pyDictGet contract_results "evm").getD (Json.obj [])
  let bytecodeDict := (← pyDictGet evm "bytecode").getD (Json.obj [])
  let objectValue ← pyDictGet bytecodeDict "object"
  let metadataValue ← pyDictGet contract_results "metadata"
  return { contract_name := contract_name
           file_name := inner_file_name
           bytecode := pyOptStr objectValue
           metadata := pyOptStr metadataValue }

/-- The inner loop of parse_standard_json_output (lines 69-76): one
contract report per (contract name, contract results) pair, in the order
given. -/
def parse_contract_list (inner_file_name : String) :
    List (String × Json) → Except PyError (List ContractReport)
  | [] => .ok []
  | (contract_name, contract_results) :: rest => do
    let cr ← parse_contract_results contract_name inner_file_name contract_results
    let crs ← parse_contract_list inner_file_name rest
    return cr :: crs

/-- The outer loop of parse_standard_json_output (lines 68-76): for each
(inner file, file results) pair, file results must be a dict, whose items
are visited in sorted order; the per-file reports are appended in
sequence. -/
def parse_file_list : List (String × Json) → Except PyError (List ContractReport)
  | [] => .ok []
  | (inner_file_name, file_results) :: rest => do
    let items ← pyItems file_results
    let crs ← parse_contract_list inner_file_name (pySortedItems items)
    let rest_crs ← parse_file_list rest
    return crs ++ rest_crs

/-- parse_standard_json_output after decoding (lines 64-78): no contracts
key means an error report with absent contract-report sequence; otherwise
the contracts value is subscripted, must be a dict, and its items are
visited in sorted order. -/
def parse_decoded (source_file_name : String) (decoded : Json) :
    Except PyError FileReport := do
  let hasContracts ← pyIn "contracts" decoded
  if hasContracts then
    let contracts ← pyGetItem decoded "contracts"
    let items ← pyItems contracts
    let reports ← parse_file_list (pySortedItems items)
    return { file_name := source_file_name, contract_reports := some reports }
  else
    return { file_name := source_file_name, contract_reports := none }

/-- parse_standard_json_output (prepare_report.py lines 61-78). The json
module decoder is a parameter loads; its failure on the whitespace-trimmed
output text is wrapped as a jsonDecodeError and propagated. -/
def parse_standard_json_output (loads : String → Except String Json)
    (source_file_name : String) (standard_json_output : String) :
    Except PyError FileReport := do
  let decoded ← (loads standard_json_output.trim).mapError PyError.jsonDecodeError
  parse_decoded source_file_name decoded

/-- One hexadecimal digit. -/
def hexDigit (n : Nat) : Char :=
  if n < 10 then Char.ofNat (48 + n) else Char.ofNat (87 + n)

/-- Four hexadecimal digits, for escape sequences. -/
def hex4 (n : Nat) : String :=
  String.mk [hexDigit (n / 4096 % 16), hexDigit (n / 256 % 16), hexDigit (n / 16 % 16), hexDigit (n % 16)]

/-- JSON string escaping as performed by json.dumps with its default
ensure_ascii setting: quote, backslash and the common control characters
get two-character escapes, any other character outside printable ASCII is
escaped as a four-digit code unit. Code points beyond the basic
multilingual plane, which Python writes as a surrogate pair, are
approximated by a single escape; the payloads of this script never reach
that case in any claim. -/
def jsonEscapeChar (c : Char) : String :=
  if c = '"' then "\\\""
  else if c = '\\' then "\\\\"
  else if c = '\n' then "\\n"
  else if c = '\t' then "\\t"
  else if c = '\r' then "\\r"
  else if c.toNat < 32 ∨ c.toNat > 126 then "\\u" ++ hex4 c.toNat
  else String.mk [c]

mutual
/-- json.dumps with default separators: object entries and array elements
joined by a comma and a space, a colon and a space between key and value. -/
def pyJsonDumps : Json → String
  | .null => "null"
  | .bool true => "true"
  | .bool false => "false"
  | .num n => toString n
  | .str s => "\"" ++ String.join (s.data.map jsonEscapeChar) ++ "\""
  | .arr xs => "[" ++ String.intercalate ", " (pyJsonDumpsList xs) ++ "]"
  | .obj kvs => "\x7b" ++ String.intercalate ", " (pyJsonDumpsEntries kvs) ++ "\x7d"

/-- Serialises each array element. -/
def pyJsonDumpsList : List Json → List String
  | [] => []
  | j :: rest => pyJsonDumps j :: pyJsonDumpsList rest

/-- Serialises each object entry. -/
def pyJsonDumpsEntries : List (String × Json) → List String
  | [] => []
  | (k, v) :: rest =>
    ("\"" ++ String.join (k.data.map jsonEscapeChar) ++ "\": " ++ pyJsonDumps v) :: pyJsonDumpsEntries rest
end

/-- The standard JSON input document built by prepare_compiler_input
(prepare_report.py lines 82-94): fixed language tag, a single source entry
keyed by the given file name and holding the loaded text, optimizer flag
and output selection, and, in DISABLE mode only, the model checker engine
setting appended to the settings dict. -/
def compiler_input_document (source_file_name : String) (optimize : Bool)
    (smt_use : SMTUse) (file_content : String) : Json :=
  Json.obj
    [("language", Json.str "Solidity"),
     ("sources", Json.obj
        [(source_file_name, Json.obj [("content", Json.str (load_source file_content smt_use))])]),
     ("settings", Json.obj
        ([("optimizer", Json.obj [("enabled", Json.bool optimize)]),
          ("outputSelection", Json.obj
             [("*", Json.obj [("*", Json.arr [Json.str "evm.bytecode.object", Json.str "metadata"])])])]
         ++ (if smt_use = SMTUse.DISABLE
             then [("modelChecker", Json.obj [("engine", Json.str "none")])]
             else [])))]

/-- prepare_compiler_input (prepare_report.py lines 81-99), with the file
read factored out into file_content. Returns the command line and the
serialised payload. -/
def prepare_compiler_input (compiler_path source_file_name : String)
    (optimize : Bool) (smt_use : SMTUse) (file_content : String) :
    List String × String :=
  ([compiler_path, "--standard-json"],
   pyJsonDumps (compiler_input_document source_file_name optimize smt_use file_content))

/-- Splits a character list at every slash. -/
def splitComponents : List Char → List (List Char)
  | [] => [[]]
  | c :: rest =>
    let r := splitComponents rest
    if c = '/' then [] :: r
    else
      match r with
      | h :: t => (c :: h) :: t
      | [] => [[c]]

/-- The name property of a Python pathlib Path: the final path component,
after dropping empty and single-dot components the way Path normalisation
does. Windows separators are not modelled. -/
def pathName (p : String) : String :=
  (((splitComponents p.data).map String.mk).filter
     (fun c => c != "" && c != ".")).getLastD ""

/-- run_compiler (prepare_report.py lines 102-112). The subprocess is the
parameter compile, mapping a command line and an input stream to the
captured standard output; the json decoder of the parser is the parameter
loads. The payload is built for the base name of the source file, while
the parse step records the original caller-supplied name. -/
def run_compiler (loads : String → Except String Json)
    (compile : List String → String → String)
    (compiler_path source_file_name : String) (optimize : Bool)
    (smt_use : SMTUse) (file_content : String) : Except PyError FileReport :=
  let prepared := prepare_compiler_input compiler_path (pathName source_file_name)
    optimize smt_use file_content
  parse_standard_json_output loads source_file_name (compile prepared.1 prepared.2)

/-- The iteration order of generate_report (prepare_report.py lines
117-118): optimization off then on, and within each level the source files
in sorted order. -/
def generate_report_schedule (source_file_names : List String) : List (Bool × String) :=
  [false, true].flatMap (fun optimize =>
    (pySorted source_file_names).map (fun f => (optimize, f)))

/-- The accumulation loop of generate_report (lines 117-129): each
successful invocation appends its formatted report to the output text; the
first raised exception stops the loop, leaving the text written so far and
the error. -/
def generate_report_go (run : Bool → String → Except PyError FileReport) :
    List (Bool × String) → String → String × Option PyError
  | [], acc => (acc, none)
  | (optimize, f) :: rest, acc =>
    match run optimize f with
    | .ok report => generate_report_go run rest (acc ++ report.format_report)
    | .error e => (acc, some e)

/-- generate_report (prepare_report.py lines 115-129) over an abstract
per-invocation runner standing for run_compiler applied to a fixed
compiler, decoder and subprocess. -/
def generate_report (run : Bool → String → Except PyError FileReport)
    (source_file_names : List String) : String × Option PyError :=
  generate_report_go run (generate_report_schedule source_file_names) ""

/-- The settings entries of an input document, for stating claims about
prepare_compiler_input. -/
def settings_entries (doc : Json) : List (String × Json) :=
  match doc with
  | .obj kvs =>
    match kvs.lookup "settings" with
    | some (.obj s) => s
    | _ => []
  | _ => []

/-- The sources entries of an input document, for stating claims about
prepare_compiler_input. -/
def sources_entries (doc : Json) : List (String × Json) :=
  match doc with
  | .obj kvs =>
    match kvs.lookup "sources" with
    | some (.obj s) => s
    | _ => []
  | _ => []

/-- Concatenation of a list of strings, for stating formatting claims. -/
def joinAll : List String → String
  | [] => ""
  | s :: rest => s ++ joinAll rest

/-- The Bool comparison agrees with the lexicographic strict order on
character lists. -/
theorem strLtChars_iff : ∀ (as bs : List Char), strLtChars as bs = true ↔ as < bs := by
  intro as
  induction as with
  | nil =>
    intro bs
    cases bs with
    | nil => exact ⟨fun h => by simp [strLtChars] at h, fun h => nomatch h⟩
    | cons b tb =>
      refine ⟨fun _ => List.Lex.nil, fun _ => ?_⟩
      simp [strLtChars]
  | cons a ta ih =>
    intro bs
    cases bs with
    | nil => exact ⟨fun h => by simp [strLtChars] at h, fun h => nomatch h⟩
    | cons b tb =>
      constructor
      · intro h
        simp only [strLtChars] at h
        by_cases hab : a < b
        · exact List.Lex.rel hab
        · rw [if_neg hab] at h
          by_cases hba : b < a
          · rw [if_pos hba] at h
            exact absurd h (by simp)
          · rw [if_neg hba] at h
            have hq : a = b := le_antisymm (not_lt.mp hba) (not_lt.mp hab)
            subst hq
            exact List.Lex.cons ((ih tb).mp h)
      · intro h
        cases h with
        | rel hr => simp [strLtChars, hr]
        | cons htail =>
          simp only [strLtChars, lt_irrefl, if_false]
          exact (ih tb).mpr htail

/-- The Bool less-or-equal on strings agrees with the lexicographic order
on their character lists. -/
theorem pyStrLe_iff (a b : String) : pyStrLe a b = true ↔ a.data ≤ b.data := by
  constructor
  · intro h
    apply not_lt.mp
    intro hlt
    have : strLtChars b.data a.data = true := (strLtChars_iff b.data a.data).mpr hlt
    simp [pyStrLe, pyStrLt, this] at h
  · intro h
    simp only [pyStrLe, pyStrLt, Bool.not_eq_true']
    cases hc : strLtChars b.data a.data with
    | false => rfl
    | true => exact absurd ((strLtChars_iff b.data a.data).mp hc) (not_lt.mpr h)

/-- Totality of the string comparison. -/
theorem pyStrLe_total (a b : String) : pyStrLe a b = true ∨ pyStrLe b a = true := by
  rcases le_total a.data b.data with h | h
  · exact Or.inl ((pyStrLe_iff a b).mpr h)
  · exact Or.inr ((pyStrLe_iff b a).mpr h)

/-- Transitivity of the string comparison. -/
theorem pyStrLe_trans {a b c : String} (h₁ : pyStrLe a b = true) (h₂ : pyStrLe b c = true) :
    pyStrLe a c = true :=
  (pyStrLe_iff a c).mpr (le_trans ((pyStrLe_iff a b).mp h₁) ((pyStrLe_iff b c).mp h₂))

/-- Antisymmetry of the string comparison. -/
theorem pyStrLe_antisymm {a b : String} (h₁ : pyStrLe a b = true) (h₂ : pyStrLe b a = true) :
    a = b :=
  String.ext (le_antisymm ((pyStrLe_iff a b).mp h₁) ((pyStrLe_iff b a).mp h₂))

/-- Inserting permutes: the result is the element consed on the list, up to
permutation. -/
theorem orderedInsertBy_perm (le : α → α → Bool) (a : α) (l : List α) :
    (orderedInsertBy le a l).Perm (a :: l) := by
  induction l with
  | nil => exact List.Perm.refl _
  | cons b t ih =>
    simp only [orderedInsertBy]
    by_cases h : le a b = true
    · rw [if_pos h]
    · rw [if_neg h]
      exact (ih.cons b).trans (List.Perm.swap a b t)

/-- The sort permutes its input. -/
theorem insertionSortBy_perm (le : α → α → Bool) (l : List α) :
    (insertionSortBy le l).Perm l := by
  induction l with
  | nil => exact List.Perm.refl _
  | cons a t ih => exact (orderedInsertBy_perm le a _).trans (ih.cons a)

/-- Members of an insertion step come from the inserted element or the
list. -/
theorem mem_orderedInsertBy {le : α → α → Bool} {a x : α} {l : List α}
    (h : x ∈ orderedInsertBy le a l) : x = a ∨ x ∈ l :=
  List.mem_cons.mp ((orderedInsertBy_perm le a l).mem_iff.mp h)

/-- Inserting into a sorted list keeps it sorted, for a total transitive
comparison. -/
theorem pairwise_orderedInsertBy (le : α → α → Bool)
    (htot : ∀ x y, le x y = true ∨ le y x = true)
    (htrans : ∀ x y z, le x y = true → le y z = true → le x z = true)
    (a : α) {l : List α} (h : l.Pairwise (fun x y => le x y = true)) :
    (orderedInsertBy le a l).Pairwise (fun x y => le x y = true) := by
  induction l with
  | nil => simp [orderedInsertBy]
  | cons b t ih =>
    rw [List.pairwise_cons] at h
    obtain ⟨hb, ht⟩ := h
    simp only [orderedInsertBy]
    by_cases hab : le a b = true
    · rw [if_pos hab, List.pairwise_cons]
      refine ⟨fun y hy => ?_, List.pairwise_cons.mpr ⟨hb, ht⟩⟩
      rcases List.mem_cons.mp hy with rfl | hyt
      · exact hab
      · exact htrans a b y hab (hb y hyt)
    · rw [if_neg hab, List.pairwise_cons]
      have hba : le b a = true := (htot a b).resolve_left hab
      refine ⟨fun y hy => ?_, ih ht⟩
      rcases mem_orderedInsertBy hy with rfl | hyt
      · exact hba
      · exact hb y hyt

/-- The sort sorts, for a total transitive comparison. -/
theorem pairwise_insertionSortBy (le : α → α → Bool)
    (htot : ∀ x y, le x y = true ∨ le y x = true)
    (htrans : ∀ x y z, le x y = true → le y z = true → le x z = true)
    (l : List α) :
    (insertionSortBy le l).Pairwise (fun x y => le x y = true) := by
  induction l with
  | nil => simp [insertionSortBy]
  | cons a t ih => exact pairwise_orderedInsertBy le htot htrans a ih

/-- Two sorted association lists that are permutations of each other and
have pairwise distinct keys are equal: sorting by key has a unique result
on key-distinct lists. -/
theorem sorted_perm_nodupkeys_eq :
    ∀ {l₁ l₂ : List (String × Json)}, l₁.Perm l₂ →
      l₁.Pairwise (fun x y => pyStrLe x.1 y.1 = true) →
      l₂.Pairwise (fun x y => pyStrLe x.1 y.1 = true) →
      (l₁.map Prod.fst).Nodup → l₁ = l₂ := by
  intro l₁
  induction l₁ with
  | nil =>
    intro l₂ hp _ _ _
    exact (List.perm_nil.mp hp.symm).symm
  | cons a t₁ ih =>
    intro l₂ hp h₁ h₂ hnd
    cases l₂ with
    | nil => exact absurd (List.perm_nil.mp hp) (by simp)
    | cons b t₂ =>
      have hab : a = b := by
        by_contra hne
        have hat₂ : a ∈ t₂ :=
          (List.mem_cons.mp (hp.mem_iff.mp (List.mem_cons_self a t₁))).resolve_left hne
        have hbt₁ : b ∈ t₁ :=
          (List.mem_cons.mp (hp.symm.mem_iff.mp (List.mem_cons_self b t₂))).resolve_left
            (fun h => hne h.symm)
        have hle₁ : pyStrLe a.1 b.1 = true := (List.pairwise_cons.mp h₁).1 b hbt₁
        have hle₂ : pyStrLe b.1 a.1 = true := (List.pairwise_cons.mp h₂).1 a hat₂
        have hkey : a.1 = b.1 := pyStrLe_antisymm hle₁ hle₂
        rw [List.map_cons, List.nodup_cons] at hnd
        exact hnd.1 (hkey ▸ List.mem_map_of_mem Prod.fst hbt₁)
      subst hab
      have ht : t₁ = t₂ := by
        apply ih hp.cons_inv (List.pairwise_cons.mp h₁).2 (List.pairwise_cons.mp h₂).2
        rw [List.map_cons, List.nodup_cons] at hnd
        exact hnd.2
      rw [ht]

/-- Key-distinct permutations sort to the same association list, so the
visit order of the parser does not depend on document entry order. -/
theorem pySortedItems_eq_of_perm {l₁ l₂ : List (String × Json)} (hp : l₁.Perm l₂)
    (hnd : (l₁.map Prod.fst).Nodup) : pySortedItems l₁ = pySortedItems l₂ := by
  apply sorted_perm_nodupkeys_eq
  · exact (insertionSortBy_perm _ l₁).trans (hp.trans (insertionSortBy_perm _ l₂).symm)
  · exact pairwise_insertionSortBy _ (fun x y => pyStrLe_total x.1 y.1)
      (fun x y z => pyStrLe_trans) l₁
  · exact pairwise_insertionSortBy _ (fun x y => pyStrLe_total x.1 y.1)
      (fun x y z => pyStrLe_trans) l₂
  · exact (((insertionSortBy_perm _ l₁).map Prod.fst).symm).nodup hnd

/-- The two lines a contract report contributes to the rendered report:
both carry the prefix file:contract and a space; the first carries the
bytecode, or the placeholder exactly when bytecode is absent; the second
carries the metadata, or the placeholder exactly when metadata is
absent. -/
def contract_lines (file_name : String) (cr : ContractReport) : List String :=
  [file_name ++ ":" ++ cr.contract_name ++ " " ++
     (match cr.bytecode with
      | some b => b
      | none => "<NO BYTECODE>"),
   file_name ++ ":" ++ cr.contract_name ++ " " ++
     (match cr.metadata with
      | some m => m
      | none => "<NO METADATA>")]

/-- The formatting fold, with a generalised accumulator, produces the
accumulated prefix followed by the newline-terminated contract lines. -/
theorem format_foldl_eq (fn : String) :
    ∀ (reports : List ContractReport) (acc : String),
      reports.foldl (fun report cr =>
        report ++ (fn ++ ":" ++ cr.contract_name ++ " " ++
          (match cr.bytecode with
           | some b => b
           | none => "<NO BYTECODE>") ++ "\n")
        ++ (fn ++ ":" ++ cr.contract_name ++ " " ++
          (match cr.metadata with
           | some m => m
           | none => "<NO METADATA>") ++ "\n")) acc
      = acc ++ joinAll ((reports.flatMap (contract_lines fn)).map (fun line => line ++ "\n")) := by
  intro reports
  induction reports with
  | nil => intro acc; simp [joinAll]
  | cons cr rest ih =>
    intro acc
    rw [List.foldl_cons, ih]
    simp only [List.flatMap_cons, contract_lines, List.map_append, List.map_cons,
      List.map_nil, joinAll, List.cons_append, List.nil_append]
    rw [String.append_assoc, String.append_assoc]
    simp [List.flatMap]

/-- A file report with a present contract-report sequence renders as the
newline-terminated contract lines in sequence. -/
theorem format_report_some (fn : String) (reports : List ContractReport) :
    FileReport.format_report ⟨fn, some reports⟩
      = joinAll ((reports.flatMap (contract_lines fn)).map (fun line => line ++ "\n")) := by
  have h := format_foldl_eq fn reports ""
  simpa [FileReport.format_report] using h

/-- Each contract report contributes exactly two lines. -/
theorem contract_lines_length (fn : String) (reports : List ContractReport) :
    (reports.flatMap (contract_lines fn)).length = 2 * reports.length := by
  induction reports with
  | nil => simp
  | cons cr rest ih =>
    simp only [List.flatMap_cons, List.length_append, ih, contract_lines, List.length_cons,
      List.length_nil]
    omega

/-- Relates optional values pointwise. -/
def optionRel (r : α → β → Prop) : Option α → Option β → Prop
  | none, none => True
  | some a, some b => r a b
  | _, _ => False

/-- Contract reports that agree on everything format_report reads: the
contract name and the two optional artifacts; the inner file name is left
unconstrained. -/
def SameRendered (cr₁ cr₂ : ContractReport) : Prop :=
  cr₁.contract_name = cr₂.contract_name ∧ cr₁.bytecode = cr₂.bytecode ∧
    cr₁.metadata = cr₂.metadata

/-- Contract reports related by SameRendered contribute identical lines. -/
theorem contract_lines_congr (fn : String) {cr₁ cr₂ : ContractReport}
    (h : SameRendered cr₁ cr₂) : contract_lines fn cr₁ = contract_lines fn cr₂ := by
  obtain ⟨h₁, h₂, h₃⟩ := h
  simp [contract_lines, h₁, h₂, h₃]

/-- A key that lookup finds is a key the membership test sees. -/
theorem lookup_some_any {kvs : List (String × Json)} {k : String} {v : Json}
    (h : kvs.lookup k = some v) : kvs.any (fun kv => k == kv.1) = true := by
  induction kvs with
  | nil => simp [List.lookup] at h
  | cons p rest ih =>
    cases p with
    | mk a b =>
      rw [List.lookup_cons] at h
      cases hk : k == a with
      | true => simp [List.any_cons, hk]
      | false =>
        rw [hk] at h
        simp [List.any_cons, ih h]

/-- Text without an occurrence of the pattern passes through the
replacement scan unchanged. -/
theorem pyReplaceGo_eq_self_of_no_occurrence (pat new : List Char) :
    ∀ (fuel : Nat) (s : List Char), s.length ≤ fuel →
      hasOccurrence pat s = false → pyReplaceGo pat new fuel s = s := by
  intro fuel
  induction fuel with
  | zero =>
    intro s hs _
    cases s with
    | nil => rfl
    | cons c rest => simp at hs
  | succ n ih =>
    intro s hs hocc
    cases s with
    | nil => rfl
    | cons c rest =>
      rw [hasOccurrence, Bool.or_eq_false_iff] at hocc
      simp only [pyReplaceGo, hocc.1, Bool.false_eq_true, if_false]
      rw [ih rest (by simpa using Nat.lt_succ_iff.mp (Nat.lt_of_lt_of_le (by simp) hs)) hocc.2]

/-- Replacement by the empty string never lengthens the text. -/
theorem pyReplaceGo_length_le (pat : List Char) :
    ∀ (fuel : Nat) (s : List Char), s.length ≤ fuel →
      (pyReplaceGo pat [] fuel s).length ≤ s.length := by
  intro fuel
  induction fuel with
  | zero =>
    intro s hs
    cases s with
    | nil => simp [pyReplaceGo]
    | cons c rest => simp at hs
  | succ n ih =>
    intro s hs
    cases s with
    | nil => simp [pyReplaceGo]
    | cons c rest =>
      have hrest : rest.length ≤ n := by
        simp only [List.length_cons] at hs
        omega
      simp only [pyReplaceGo]
      by_cases hpre : pat.isPrefixOf (c :: rest) = true
      · rw [if_pos hpre]
        have hdrop : (rest.drop (pat.length - 1)).length ≤ n := by
          rw [List.length_drop]
          omega
        have := ih (rest.drop (pat.length - 1)) hdrop
        rw [List.length_drop] at this
        simp only [List.nil_append, List.length_cons]
        omega
      · rw [if_neg hpre]
        have := ih rest hrest
        simp only [List.length_cons]
        omega

/-- Text with an occurrence of a nonempty pattern loses at least that
occurrence: the scan output is at least a pattern length shorter. -/
theorem pyReplaceGo_length_add_le (pat : List Char) (hne : pat ≠ []) :
    ∀ (fuel : Nat) (s : List Char), s.length ≤ fuel →
      hasOccurrence pat s = true →
      (pyReplaceGo pat [] fuel s).length + pat.length ≤ s.length := by
  have hplen : 0 < pat.length := List.length_pos.mpr hne
  intro fuel
  induction fuel with
  | zero =>
    intro s hs hocc
    cases s with
    | nil =>
      cases pat with
      | nil => exact absurd rfl hne
      | cons p pt => simp [hasOccurrence] at hocc
    | cons c rest => simp at hs
  | succ n ih =>
    intro s hs hocc
    cases s with
    | nil =>
      cases pat with
      | nil => exact absurd rfl hne
      | cons p pt => simp [hasOccurrence] at hocc
    | cons c rest =>
      have hrest : rest.length ≤ n := by
        simp only [List.length_cons] at hs
        omega
      simp only [pyReplaceGo]
      by_cases hpre : pat.isPrefixOf (c :: rest) = true
      · rw [if_pos hpre]
        have hplen_le : pat.length ≤ rest.length + 1 := by
          have := (List.isPrefixOf_iff_prefix.mp hpre).length_le
          simpa using this
        have hdrop : (rest.drop (pat.length - 1)).length ≤ n := by
          rw [List.length_drop]
          omega
        have := pyReplaceGo_length_le pat n (rest.drop (pat.length - 1)) hdrop
        rw [List.length_drop] at this
        simp only [List.nil_append, List.length_cons]
        omega
      · rw [if_neg hpre]
        rw [hasOccurrence, Bool.or_eq_true] at hocc
        have hocc_rest : hasOccurrence pat rest = true := by
          rcases hocc with h | h
          · exact absurd h hpre
          · exact h
        have := ih rest hrest hocc_rest
        simp only [List.length_cons]
        omega

/-- Errors the parser may raise other than a decode failure. -/
def NotDecodeError : PyError → Prop
  | .jsonDecodeError _ => False
  | _ => True

/-- Splits a failed bind into a failure of its first or second stage. -/
theorem bind_error {α β : Type} {x : Except PyError α} {g : α → Except PyError β} {e : PyError}
    (h : (x >>= g) = .error e) : x = .error e ∨ ∃ a, x = .ok a ∧ g a = .error e := by
  cases x with
  | error e₀ =>
    simp only [Bind.bind, Except.bind] at h
    injection h with h₀
    exact Or.inl (congrArg Except.error h₀)
  | ok a =>
    simp only [Bind.bind, Except.bind] at h
    exact Or.inr ⟨a, rfl, h⟩

/-- The membership test never raises a decode error. -/
theorem pyIn_error {key : String} {j : Json} {e : PyError} (h : pyIn key j = .error e) :
    NotDecodeError e := by
  cases j <;> simp [pyIn] at h <;> simp [← h, NotDecodeError]

/-- The subscript operator never raises a decode error. -/
theorem pyGetItem_error {j : Json} {key : String} {e : PyError}
    (h : pyGetItem j key = .error e) : NotDecodeError e := by
  cases j <;> simp [pyGetItem] at h
  case obj kvs =>
    revert h
    cases kvs.lookup key with
    | none => intro h; simp at h; simp [← h, NotDecodeError]
    | some v => intro h; simp at h
  all_goals simp [← h, NotDecodeError]

/-- The items method never raises a decode error. -/
theorem pyItems_error {j : Json} {e : PyError} (h : pyItems j = .error e) :
    NotDecodeError e := by
  cases j <;> simp [pyItems] at h <;> simp [← h, NotDecodeError]

/-- The get method never raises a decode error. -/
theorem pyDictGet_error {j : Json} {key : String} {e : PyError}
    (h : pyDictGet j key = .error e) : NotDecodeError e := by
  cases j <;> simp [pyDictGet] at h <;> simp [← h, NotDecodeError]

/-- The per-contract extraction never raises a decode error. -/
theorem parse_contract_results_error {cn fn : String} {cr : Json} {e : PyError}
    (h : parse_contract_results cn fn cr = .error e) : NotDecodeError e := by
  unfold parse_contract_results at h
  rcases bind_error h with h | ⟨a, _, h⟩
  · exact pyDictGet_error h
  dsimp only at h
  rcases bind_error h with h | ⟨b, _, h⟩
  · exact pyDictGet_error h
  rcases bind_error h with h | ⟨c, _, h⟩
  · exact pyDictGet_error h
  rcases bind_error h with h | ⟨d, _, h⟩
  · exact pyDictGet_error h
  simp [pure, Except.pure] at h

/-- The inner parsing loop never raises a decode error. -/
theorem parse_contract_list_error {fn : String} :
    ∀ {items : List (String × Json)} {e : PyError},
      parse_contract_list fn items = .error e → NotDecodeError e := by
  intro items
  induction items with
  | nil => intro e h; simp [parse_contract_list] at h
  | cons p rest ih =>
    intro e h
    cases p with
    | mk cn cr =>
      unfold parse_contract_list at h
      rcases bind_error h with h | ⟨a, _, h⟩
      · exact parse_contract_results_error h
      rcases bind_error h with h | ⟨b, _, h⟩
      · exact ih h
      simp [pure, Except.pure] at h

/-- The outer parsing loop never raises a decode error. -/
theorem parse_file_list_error :
    ∀ {items : List (String × Json)} {e : PyError},
      parse_file_list items = .error e → NotDecodeError e := by
  intro items
  induction items with
  | nil => intro e h; simp [parse_file_list] at h
  | cons p rest ih =>
    intro e h
    cases p with
    | mk fn fr =>
      unfold parse_file_list at h
      rcases bind_error h with h | ⟨a, _, h⟩
      · exact pyItems_error h
      rcases bind_error h with h | ⟨b, _, h⟩
      · exact parse_contract_list_error h
      rcases bind_error h with h | ⟨c, _, h⟩
      · exact ih h
      simp [pure, Except.pure] at h

/-- The parse of an already decoded document never raises a decode error:
a decode error can only originate from the json decoder itself. -/
theorem parse_decoded_error {f : String} {decoded : Json} {e : PyError}
    (h : parse_decoded f decoded = .error e) : NotDecodeError e := by
  unfold parse_decoded at h
  rcases bind_error h with h | ⟨b, _, h⟩
  · exact pyIn_error h
  cases b with
  | false => simp [pure, Except.pure] at h
  | true =>
    simp only [if_true] at h
    rcases bind_error h with h | ⟨c, _, h⟩
    · exact pyGetItem_error h
    rcases bind_error h with h | ⟨d, _, h⟩
    · exact pyItems_error h
    rcases bind_error h with h | ⟨r, _, h⟩
    · exact parse_file_list_error h
    simp [pure, Except.pure] at h

/-- When decoding succeeds, the parser continues on the decoded document. -/
theorem parse_output_ok (loads : String → Except String Json) (f raw : String) (doc : Json)
    (h : loads raw.trim = .ok doc) :
    parse_standard_json_output loads f raw = parse_decoded f doc := by
  simp [parse_standard_json_output, h, Except.mapError, Bind.bind, Except.bind]

/-- A document on which the membership test for the contracts key answers
false parses to the error report. -/
theorem parse_decoded_no_contracts {f : String} {doc : Json}
    (h : pyIn "contracts" doc = .ok false) :
    parse_decoded f doc = .ok ⟨f, none⟩ := by
  simp [parse_decoded, h, Bind.bind, Except.bind, pure, Except.pure]

/-- A document whose contracts key holds an object parses through the
sorted items of that object. -/
theorem parse_decoded_contracts {f : String} {d kvs : List (String × Json)}
    (h : d.lookup "contracts" = some (Json.obj kvs)) :
    parse_decoded f (Json.obj d)
      = (parse_file_list (pySortedItems kvs) >>= fun reports => pure ⟨f, some reports⟩) := by
  have hin : pyIn "contracts" (Json.obj d) = .ok true := by
    simp [pyIn, lookup_some_any h]
  have hget : pyGetItem (Json.obj d) "contracts" = .ok (Json.obj kvs) := by
    simp [pyGetItem, h]
  simp [parse_decoded, hin, hget, pyItems, Bind.bind, Except.bind]

/-- C1: for every file name and raw output text whose decoded document has
no top-level contracts key (the membership test answers false),
parse_standard_json_output returns a FileReport with absent contract-report
sequence, and format_report on any FileReport with absent contract-report
sequence returns exactly the single line file: <ERROR> terminated by a
newline, emitting nothing else for that file. -/
theorem claim1_no_contracts_error_line :
    (∀ (loads : String → Except String Json) (source_file_name raw : String) (decoded : Json),
        loads raw.trim = .ok decoded →
        pyIn "contracts" decoded = .ok false →
        parse_standard_json_output loads source_file_name raw
          = .ok ⟨source_file_name, none⟩)
    ∧ (∀ fr : FileReport, fr.contract_reports = none →
        fr.format_report = fr.file_name ++ ": <ERROR>\n") := by
  constructor
  · intro loads f raw doc h₁ h₂
    rw [parse_output_ok loads f raw doc h₁, parse_decoded_no_contracts h₂]
  · intro fr h
    cases fr with
    | mk fn crs =>
      dsimp only at h
      subst h
      rfl

/-- C1 witness: a decoder producing an empty object document yields the
error report, which renders as the single error line. -/
theorem claim1_witness :
    parse_standard_json_output (fun _ => .ok (Json.obj [])) "a.sol" "output"
        = .ok ⟨"a.sol", none⟩
    ∧ FileReport.format_report ⟨"a.sol", none⟩ = "a.sol" ++ ": <ERROR>\n" :=
  ⟨claim1_no_contracts_error_line.1 (fun _ => .ok (Json.obj [])) "a.sol" "output"
      (Json.obj []) rfl rfl,
   claim1_no_contracts_error_line.2 ⟨"a.sol", none⟩ rfl⟩

/-- C2: a FileReport with a present contract-report sequence renders as
exactly two newline-terminated lines per ContractReport, in sequence; each
line is prefixed by the file name, a colon, the contract name and a space
(see contract_lines), the first carrying the bytecode with the placeholder
exactly when bytecode is absent, the second carrying the metadata with the
placeholder exactly when metadata is absent. -/
theorem claim2_two_lines_per_contract :
    ∀ (fr : FileReport) (reports : List ContractReport),
      fr.contract_reports = some reports →
      fr.format_report
          = joinAll ((reports.flatMap (contract_lines fr.file_name)).map (fun line => line ++ "\n"))
      ∧ (reports.flatMap (contract_lines fr.file_name)).length = 2 * reports.length := by
  intro fr reports h
  cases fr with
  | mk fn crs =>
    dsimp only at h ⊢
    subst h
    exact ⟨format_report_some fn reports, contract_lines_length fn reports⟩

/-- C2 witness: one contract report with bytecode present and metadata
absent renders as its two prefixed lines. -/
theorem claim2_witness :
    FileReport.format_report ⟨"f.sol", some [⟨"C", "f.sol", some "0x60", none⟩]⟩
        = joinAll ((([(⟨"C", "f.sol", some "0x60", none⟩ : ContractReport)].flatMap
            (contract_lines "f.sol")).map (fun line => line ++ "\n")))
    ∧ ([(⟨"C", "f.sol", some "0x60", none⟩ : ContractReport)].flatMap
        (contract_lines "f.sol")).length = 2 * [(⟨"C", "f.sol", some "0x60", none⟩ : ContractReport)].length :=
  claim2_two_lines_per_contract ⟨"f.sol", some [⟨"C", "f.sol", some "0x60", none⟩]⟩
    [⟨"C", "f.sol", some "0x60", none⟩] rfl

/-- C9: a decoded document that is an object whose contracts key holds an
empty object parses to a FileReport with a present but empty
contract-report sequence, which renders as the empty string: zero lines,
distinguishable from the error case. -/
theorem claim9_empty_contracts_empty_report :
    (∀ (loads : String → Except String Json) (source_file_name raw : String)
        (kvs : List (String × Json)),
        loads raw.trim = .ok (Json.obj kvs) →
        kvs.lookup "contracts" = some (Json.obj []) →
        parse_standard_json_output loads source_file_name raw
          = .ok ⟨source_file_name, some []⟩)
    ∧ ∀ f : String, FileReport.format_report ⟨f, some []⟩ = "" := by
  constructor
  · intro loads f raw kvs h₁ h₂
    rw [parse_output_ok loads f raw _ h₁, parse_decoded_contracts h₂]
    rfl
  · intro f
    rfl

/-- C9 witness: a decoder producing a document with an empty contracts
object. -/
theorem claim9_witness :
    parse_standard_json_output (fun _ => .ok (Json.obj [("contracts", Json.obj [])]))
        "a.sol" "out" = .ok ⟨"a.sol", some []⟩
    ∧ FileReport.format_report ⟨"a.sol", some []⟩ = "" :=
  ⟨claim9_empty_contracts_empty_report.1 _ "a.sol" "out" [("contracts", Json.obj [])] rfl rfl,
   claim9_empty_contracts_empty_report.2 "a.sol"⟩

/-- C10: the rendered output of format_report does not depend on the
file_name stored inside the contract reports: two FileReports with the
same outer file name whose contract-report sequences agree on contract
names, bytecode and metadata render to identical text. -/
theorem claim10_inner_file_name_irrelevant :
    ∀ fr₁ fr₂ : FileReport, fr₁.file_name = fr₂.file_name →
      optionRel (List.Forall₂ SameRendered) fr₁.contract_reports fr₂.contract_reports →
      fr₁.format_report = fr₂.format_report := by
  intro fr₁ fr₂ hf hrel
  cases fr₁ with
  | mk fn₁ crs₁ =>
  cases fr₂ with
  | mk fn₂ crs₂ =>
  dsimp only at hf hrel
  subst hf
  cases crs₁ with
  | none =>
    cases crs₂ with
    | none => rfl
    | some l₂ => exact hrel.elim
  | some l₁ =>
    cases crs₂ with
    | none => exact hrel.elim
    | some l₂ =>
      have hflat : l₁.flatMap (contract_lines fn₁) = l₂.flatMap (contract_lines fn₁) := by
        induction hrel with
        | nil => rfl
        | cons h t ih => simp [List.flatMap_cons, contract_lines_congr fn₁ h, ih]
      rw [format_report_some, format_report_some, hflat]

/-- C10 witness: two reports differing only in the inner file name render
identically. -/
theorem claim10_witness :
    FileReport.format_report ⟨"f.sol", some [⟨"C", "f.sol", some "0x", some "m"⟩]⟩
      = FileReport.format_report ⟨"f.sol", some [⟨"C", "other.sol", some "0x", some "m"⟩]⟩ :=
  claim10_inner_file_name_irrelevant _ _ rfl
    (List.Forall₂.cons ⟨rfl, rfl, rfl⟩ List.Forall₂.nil)

/-- C3: the parser visits the contract entries through pySortedItems, so
the contract-report sequence does not depend on the order of entries in
the source document: permuting the key-distinct contracts object leaves
the parse unchanged, the visited list is a sorted permutation of the
document entries, and the concrete document with contracts entries C1 and
C2 parses to the two reports with C1 before C2 in either entry order. -/
theorem claim3_sorted_order_independence :
    (∀ (source_file_name : String) (d₁ d₂ kvs₁ kvs₂ : List (String × Json)),
        d₁.lookup "contracts" = some (Json.obj kvs₁) →
        d₂.lookup "contracts" = some (Json.obj kvs₂) →
        kvs₁.Perm kvs₂ →
        (kvs₁.map Prod.fst).Nodup →
        parse_decoded source_file_name (Json.obj d₁)
          = parse_decoded source_file_name (Json.obj d₂))
    ∧ (∀ kvs : List (String × Json),
        (pySortedItems kvs).Perm kvs
        ∧ (pySortedItems kvs).Pairwise (fun a b => pyStrLe a.1 b.1 = true))
    ∧ parse_decoded "x.sol"
          (Json.obj [("contracts", Json.obj [("a.sol", Json.obj
             [("C1", Json.obj [("evm", Json.obj [("bytecode", Json.obj [("object", Json.str "b1")])]),
                               ("metadata", Json.str "m1")]),
              ("C2", Json.obj [("metadata", Json.str "m2")])])])])
        = .ok ⟨"x.sol", some [⟨"C1", "a.sol", some "b1", some "m1"⟩,
                              ⟨"C2", "a.sol", none, some "m2"⟩]⟩
    ∧ parse_decoded "x.sol"
          (Json.obj [("contracts", Json.obj [("a.sol", Json.obj
             [("C2", Json.obj [("metadata", Json.str "m2")]),
              ("C1", Json.obj [("evm", Json.obj [("bytecode", Json.obj [("object", Json.str "b1")])]),
                               ("metadata", Json.str "m1")])])])])
        = .ok ⟨"x.sol", some [⟨"C1", "a.sol", some "b1", some "m1"⟩,
                              ⟨"C2", "a.sol", none, some "m2"⟩]⟩ := by
  refine ⟨?_, ?_, rfl, rfl⟩
  · intro f d₁ d₂ kvs₁ kvs₂ h₁ h₂ hp hnd
    rw [parse_decoded_contracts h₁, parse_decoded_contracts h₂,
      pySortedItems_eq_of_perm hp hnd]
  · intro kvs
    exact ⟨insertionSortBy_perm _ kvs,
      pairwise_insertionSortBy _ (fun x y => pyStrLe_total x.1 y.1)
        (fun x y z => pyStrLe_trans) kvs⟩

/-- C3 witness: swapping two inner-file entries of the contracts object
leaves the parse unchanged. -/
theorem claim3_witness :
    parse_decoded "x.sol"
        (Json.obj [("contracts", Json.obj [("b.sol", Json.obj []), ("a.sol", Json.obj [])])])
      = parse_decoded "x.sol"
        (Json.obj [("contracts", Json.obj [("a.sol", Json.obj []), ("b.sol", Json.obj [])])]) :=
  claim3_sorted_order_independence.1 "x.sol" _ _ _ _ rfl rfl
    (List.Perm.swap ("a.sol", Json.obj []) ("b.sol", Json.obj []) [])
    (by decide)

/-- C8: the parser fails with a decode error exactly when the decoder
fails on the whitespace-trimmed raw output text, and the decoder message
is propagated unchanged; every other outcome of the parser, success or
dynamic-typing failure, is not a decode error. -/
theorem claim8_decode_error_propagation :
    ∀ (loads : String → Except String Json) (source_file_name raw msg : String),
      parse_standard_json_output loads source_file_name raw
          = .error (.jsonDecodeError msg)
        ↔ loads raw.trim = .error msg := by
  intro loads f raw msg
  cases h : loads raw.trim with
  | error e =>
    have hp : parse_standard_json_output loads f raw = .error (.jsonDecodeError e) := by
      simp [parse_standard_json_output, h, Except.mapError, Bind.bind, Except.bind]
    constructor
    · intro hl
      rw [hp] at hl
      injection hl with h₁
      injection h₁ with h₂
      rw [h₂]
    · intro hr
      injection hr with h₁
      rw [← h₁]
      exact hp
  | ok doc =>
    constructor
    · intro hl
      rw [parse_output_ok loads f raw doc h] at hl
      exact (parse_decoded_error hl).elim
    · intro hr
      exact Except.noConfusion hr

/-- C8 witness: a failing decoder propagates its message. -/
theorem claim8_witness :
    parse_standard_json_output (fun _ => .error "boom") "a.sol" "raw"
      = .error (.jsonDecodeError "boom") :=
  (claim8_decode_error_propagation (fun _ => .error "boom") "a.sol" "raw" "boom").mpr rfl

/-- C5 counterexample: the claim that strip-pragmas output contains zero
occurrences of the directive fails. On this input the single left-to-right
pass removes the one occurrence, but the removal juxtaposes the
surrounding fragments into a new occurrence: the output is exactly the
directive substring itself. -/
theorem claim5_counterexample :
    load_source "pragpragma experimental SMTChecker;ma experimental SMTChecker;"
        SMTUse.STRIP_PRAGMAS = smtPragma
    ∧ hasOccurrence smtPragma.data
        (load_source "pragpragma experimental SMTChecker;ma experimental SMTChecker;"
          SMTUse.STRIP_PRAGMAS).data = true :=
  ⟨rfl, rfl⟩

/-- C5 amended: preserve mode returns the text byte-identical; strip mode
removes occurrences in one left-to-right pass, so text without the
directive is returned unchanged, and text containing it comes back at
least one directive length shorter (its first occurrence is removed),
though removal can juxtapose fragments into a new occurrence. -/
theorem claim5_amended_single_pass :
    (∀ content : String, load_source content SMTUse.PRESERVE = content)
    ∧ (∀ content : String, hasOccurrence smtPragma.data content.data = false →
        load_source content SMTUse.STRIP_PRAGMAS = content)
    ∧ (∀ content : String, hasOccurrence smtPragma.data content.data = true →
        (load_source content SMTUse.STRIP_PRAGMAS).length + smtPragma.length
          ≤ content.length) := by
  refine ⟨fun content => rfl, ?_, ?_⟩
  · intro content h
    show pyReplace content smtPragma "" = content
    unfold pyReplace
    rw [if_neg (by decide)]
    rw [pyReplaceGo_eq_self_of_no_occurrence _ _ _ _ (le_refl _) h]
  · intro content h
    show (pyReplace content smtPragma "").length + smtPragma.length ≤ content.length
    unfold pyReplace
    rw [if_neg (by decide)]
    exact pyReplaceGo_length_add_le smtPragma.data (by decide)
      content.data.length content.data (le_refl _) h

/-- C5 amended witness: a directive-free text passes strip mode unchanged,
and the directive itself strips to something at least a directive length
shorter. -/
theorem claim5_amended_witness :
    load_source "abc" SMTUse.PRESERVE = "abc"
    ∧ load_source "abc" SMTUse.STRIP_PRAGMAS = "abc"
    ∧ (load_source smtPragma SMTUse.STRIP_PRAGMAS).length + smtPragma.length
        ≤ smtPragma.length :=
  ⟨claim5_amended_single_pass.1 "abc",
   claim5_amended_single_pass.2.1 "abc" (by decide),
   claim5_amended_single_pass.2.2 smtPragma (by decide)⟩

/-- C6: the settings of the built input document contain the model checker
engine none entry exactly in DISABLE mode; PRESERVE and STRIP_PRAGMAS do
not add the key. -/
theorem claim6_model_checker_setting :
    ∀ (source_file_name : String) (optimize : Bool) (smt_use : SMTUse) (file_content : String),
      ((settings_entries (compiler_input_document source_file_name optimize smt_use
            file_content)).lookup "modelChecker"
          = some (Json.obj [("engine", Json.str "none")])
        ↔ smt_use = SMTUse.DISABLE)
      ∧ (smt_use ≠ SMTUse.DISABLE →
          (settings_entries (compiler_input_document source_file_name optimize smt_use
            file_content)).lookup "modelChecker" = none) := by
  intro f opt smt content
  cases smt with
  | DISABLE => exact ⟨⟨fun _ => rfl, fun _ => rfl⟩, fun h => absurd rfl h⟩
  | PRESERVE =>
    exact ⟨⟨fun h => Option.noConfusion h, fun h => SMTUse.noConfusion h⟩, fun _ => rfl⟩
  | STRIP_PRAGMAS =>
    exact ⟨⟨fun h => Option.noConfusion h, fun h => SMTUse.noConfusion h⟩, fun _ => rfl⟩

/-- C6 witness: the setting appears in DISABLE mode and not in PRESERVE
mode. -/
theorem claim6_witness :
    (settings_entries (compiler_input_document "a.sol" false SMTUse.DISABLE "c")).lookup
        "modelChecker" = some (Json.obj [("engine", Json.str "none")])
    ∧ (settings_entries (compiler_input_document "a.sol" false SMTUse.PRESERVE "c")).lookup
        "modelChecker" = none :=
  ⟨(claim6_model_checker_setting "a.sol" false SMTUse.DISABLE "c").1.mpr rfl,
   (claim6_model_checker_setting "a.sol" false SMTUse.PRESERVE "c").2 (by decide)⟩

/-- C7: run_compiler builds the payload for the base name of the source
file while parsing under the original name, the command line is exactly
the compiler path followed by the standard-json flag, the sources mapping
of the document is keyed by exactly the name the builder is given, and a
path with directories is keyed by its base name, which differs from the
original path. -/
theorem claim7_basename_key_and_command_line :
    (∀ (loads : String → Except String Json) (compile : List String → String → String)
        (compiler_path source_file_name : String) (optimize : Bool) (smt_use : SMTUse)
        (file_content : String),
        run_compiler loads compile compiler_path source_file_name optimize smt_use file_content
          = parse_standard_json_output loads source_file_name
              (compile [compiler_path, "--standard-json"]
                (pyJsonDumps (compiler_input_document (pathName source_file_name) optimize
                  smt_use file_content))))
    ∧ (∀ (compiler_path source_file_name : String) (optimize : Bool) (smt_use : SMTUse)
        (file_content : String),
        prepare_compiler_input compiler_path source_file_name optimize smt_use file_content
          = ([compiler_path, "--standard-json"],
             pyJsonDumps (compiler_input_document source_file_name optimize smt_use
               file_content)))
    ∧ (∀ (source_file_name : String) (optimize : Bool) (smt_use : SMTUse)
        (file_content : String),
        sources_entries (compiler_input_document source_file_name optimize smt_use file_content)
          = [(source_file_name, Json.obj [("content", Json.str (load_source file_content smt_use))])])
    ∧ pathName "contracts/token/a.sol" = "a.sol"
    ∧ pathName "contracts/token/a.sol" ≠ "contracts/token/a.sol" := by
  refine ⟨fun _ _ _ _ _ _ _ => rfl, fun _ _ _ _ _ => rfl, ?_, rfl, by decide⟩
  intro f opt smt content
  rfl

/-- C7 witness: the wiring equation at a concrete invocation. -/
theorem claim7_witness :
    run_compiler (fun _ => .ok (Json.obj [])) (fun _ _ => "out") "solc"
        "contracts/token/a.sol" false SMTUse.PRESERVE "content"
      = parse_standard_json_output (fun _ => .ok (Json.obj [])) "contracts/token/a.sol"
          ((fun _ _ => "out") ["solc", "--standard-json"]
            (pyJsonDumps (compiler_input_document (pathName "contracts/token/a.sol") false
              SMTUse.PRESERVE "content"))) :=
  claim7_basename_key_and_command_line.1 (fun _ => .ok (Json.obj [])) (fun _ _ => "out")
    "solc" "contracts/token/a.sol" false SMTUse.PRESERVE "content"

/-- The generation loop over a runner that always succeeds accumulates the
formatted reports of the schedule in order. -/
theorem generate_report_go_ok (r : Bool → String → FileReport) :
    ∀ (schedule : List (Bool × String)) (acc : String),
      generate_report_go (fun o f => .ok (r o f)) schedule acc
        = (acc ++ joinAll (schedule.map (fun p => (r p.1 p.2).format_report)), none) := by
  intro schedule
  induction schedule with
  | nil => intro acc; simp [generate_report_go, joinAll]
  | cons p rest ih =>
    intro acc
    cases p with
    | mk o f =>
      simp only [generate_report_go, ih, List.map_cons, joinAll]
      rw [String.append_assoc]

/-- A runner standing for a run that returns one report per invocation. -/
def constantRun (_optimize : Bool) (f : String) : FileReport :=
  ⟨f, none⟩

/-- C4: generate_report iterates the optimization levels in the fixed
order false then true and, within each level, the source files in sorted
order: for an always-successful runner the output is the formatted reports
of the sorted files at level false followed by the sorted files at level
true; the sorted file list is a permutation of the input, pairwise ordered
by the code-point comparison, which coincides with the lexicographic order
on character lists; and the schedule for files B.sol, A.sol is the four
pairs (false, A.sol), (false, B.sol), (true, A.sol), (true, B.sol) in that
exact sequence. -/
theorem claim4_generate_report_order :
    (∀ (r : Bool → String → FileReport) (files : List String),
        generate_report (fun o f => .ok (r o f)) files
          = (joinAll (((pySorted files).map (r false)
              ++ (pySorted files).map (r true)).map FileReport.format_report), none))
    ∧ (∀ files : List String,
        (pySorted files).Perm files
        ∧ (pySorted files).Pairwise (fun a b => pyStrLe a b = true))
    ∧ generate_report_schedule ["B.sol", "A.sol"]
        = [(false, "A.sol"), (false, "B.sol"), (true, "A.sol"), (true, "B.sol")]
    ∧ (∀ a b : String, pyStrLe a b = true ↔ a.data ≤ b.data) := by
  refine ⟨?_, ?_, rfl, pyStrLe_iff⟩
  · intro r files
    unfold generate_report generate_report_schedule
    rw [generate_report_go_ok]
    simp only [List.map_append, List.map_map, List.flatMap_cons, List.flatMap_nil,
      List.append_nil, String.empty_append]
    rfl
  · intro files
    exact ⟨insertionSortBy_perm _ files,
      pairwise_insertionSortBy _ pyStrLe_total (fun a b c => pyStrLe_trans) files⟩

/-- C4 witness: the order equation at the two concrete files given
unsorted. -/
theorem claim4_witness :
    generate_report (fun o f => .ok (constantRun o f)) ["B.sol", "A.sol"]
      = (joinAll (((pySorted ["B.sol", "A.sol"]).map (constantRun false)
          ++ (pySorted ["B.sol", "A.sol"]).map (constantRun true)).map
            FileReport.format_report), none) :=
  claim4_generate_report_order.1 constantRun ["B.sol", "A.sol"]

end BytecodeCompare
